import Mathlib

/-!
Verification development for the intent-apparatus repository: a shallow
embedding of the command interpreter (`intent_parser.py`), the action
dispatcher (`app.py`) and the execution history, together with theorems
settling the frozen claims about them.

Python strings are modelled as Lean `String`; Python `re.search` is modelled
by an executable backtracking regex matcher specialized to the constructs the
source patterns use (literals, character classes, greedy `*`/`+`/`?`,
alternation, capture groups).  The commands are lowercased before matching,
and every pattern in the source is lowercase, so the `re.IGNORECASE` flag has
no observable effect and is not modelled.
-/

/-- The whitespace characters stripped by Python `str.strip()` and matched by
the regex class `\s` (ASCII range). -/
def isPyWs (c : Char) : Bool :=
  c = ' ' || c = '\t' || c = '\n' || c = '\r' || c = '\x0b' || c = '\x0c'

/-- Python `str.lower()` on a character, restricted to ASCII letters (the only
case-carrying characters the source patterns can react to). -/
def pyLowerChar (c : Char) : Char :=
  if c = 'A' then 'a' else if c = 'B' then 'b' else if c = 'C' then 'c'
  else if c = 'D' then 'd' else if c = 'E' then 'e' else if c = 'F' then 'f'
  else if c = 'G' then 'g' else if c = 'H' then 'h' else if c = 'I' then 'i'
  else if c = 'J' then 'j' else if c = 'K' then 'k' else if c = 'L' then 'l'
  else if c = 'M' then 'm' else if c = 'N' then 'n' else if c = 'O' then 'o'
  else if c = 'P' then 'p' else if c = 'Q' then 'q' else if c = 'R' then 'r'
  else if c = 'S' then 's' else if c = 'T' then 't' else if c = 'U' then 'u'
  else if c = 'V' then 'v' else if c = 'W' then 'w' else if c = 'X' then 'x'
  else if c = 'Y' then 'y' else if c = 'Z' then 'z' else c

/-- Python `str.upper()` on a character (ASCII), used by the example-catalogue
formatter `_get_example_commands`. -/
def pyUpperChar (c : Char) : Char :=
  if c = 'a' then 'A' else if c = 'b' then 'B' else if c = 'c' then 'C'
  else if c = 'd' then 'D' else if c = 'e' then 'E' else if c = 'f' then 'F'
  else if c = 'g' then 'G' else if c = 'h' then 'H' else if c = 'i' then 'I'
  else if c = 'j' then 'J' else if c = 'k' then 'K' else if c = 'l' then 'L'
  else if c = 'm' then 'M' else if c = 'n' then 'N' else if c = 'o' then 'O'
  else if c = 'p' then 'P' else if c = 'q' then 'Q' else if c = 'r' then 'R'
  else if c = 's' then 'S' else if c = 't' then 'T' else if c = 'u' then 'U'
  else if c = 'v' then 'V' else if c = 'w' then 'W' else if c = 'x' then 'X'
  else if c = 'y' then 'Y' else if c = 'z' then 'Z' else c

/-- Python `str.lower()` on a string. -/
def pyLowerStr (s : String) : String := ⟨s.data.map pyLowerChar⟩

/-- Python `str.upper()` on a string. -/
def pyUpperStr (s : String) : String := ⟨s.data.map pyUpperChar⟩

/-- Python `str.strip()` on a character list: drop whitespace from both ends. -/
def pyStripList (l : List Char) : List Char :=
  ((l.dropWhile isPyWs).reverse.dropWhile isPyWs).reverse

/-- Python `str.strip()`. -/
def pyStrip (s : String) : String := ⟨pyStripList s.data⟩

/-- The preprocessing `command.lower().strip()` of `parse_command`. -/
def normCmd (s : String) : String := pyStrip (pyLowerStr s)

/-- Character classes occurring in the source regex patterns. -/
inductive CClass where
  /-- the class `\d` -/
  | digit
  /-- the class `\w` -/
  | word
  /-- the class `\s` -/
  | space
  /-- the class `[^"']` -/
  | notQuote
  /-- the class `["']` -/
  | quote
deriving DecidableEq, Repr

/-- Membership of a character in a class, per Python `re` (ASCII range). -/
def CClass.mem : CClass → Char → Bool
  | .digit, c => c.isDigit
  | .word, c => c.isAlphanum || c = '_'
  | .space, c => isPyWs c
  | .notQuote, c => !(c = '"' || c = '\'')
  | .quote, c => c = '"' || c = '\''

/-- The fragment of Python regular expressions used by `_initialize_patterns`:
literal strings, character classes, greedy star over a class, sequencing,
alternation, greedy option, and numbered capture groups. -/
inductive Regex where
  /-- the empty pattern -/
  | eps
  /-- a literal character sequence -/
  | str (cs : List Char)
  /-- one character of a class -/
  | cls (c : CClass)
  /-- greedy `*` over a character class -/
  | star (c : CClass)
  /-- concatenation -/
  | seq (a b : Regex)
  /-- alternation, left branch preferred (Python backtracking order) -/
  | alt (a b : Regex)
  /-- greedy `?`, presence preferred -/
  | opt (a : Regex)
  /-- capture group number `i` -/
  | group (i : Nat) (a : Regex)
deriving Repr

/-- Capture environment: `match.group(i)`; `none` models an unset group. -/
def Caps : Type := Nat → Option String

/-- The capture environment at the start of a match attempt. -/
def emptyCaps : Caps := fun _ => none

/-- Consume a literal character sequence from the front of the input,
returning the rest on success. -/
def eatLit : List Char → List Char → Option (List Char)
  | [], s => some s
  | _ :: _, [] => none
  | c :: cs, a :: s => if a = c then eatLit cs s else none

/-- All ways the greedy `*` of a class can split the input, longest
consumption first (Python's backtracking preference). -/
def starSplits (c : CClass) (s : List Char) (k : Caps) : List (List Char × Caps) :=
  (List.range ((s.takeWhile c.mem).length + 1)).reverse.map (fun n => (s.drop n, k))

/-- All matches of a regex against a prefix of `s`, as (remaining input,
captures) pairs, in Python's backtracking preference order: the head of the
list is the match `re.search` commits to at this start position. -/
def matchRuns : Regex → List Char → Caps → List (List Char × Caps)
  | .eps, s, k => [(s, k)]
  | .str cs, s, k =>
    match eatLit cs s with
    | some rest => [(rest, k)]
    | none => []
  | .cls c, s, k =>
    match s with
    | [] => []
    | a :: rest => if c.mem a then [(rest, k)] else []
  | .star c, s, k => starSplits c s k
  | .seq a b, s, k => (matchRuns a s k).flatMap (fun p => matchRuns b p.1 p.2)
  | .alt a b, s, k => matchRuns a s k ++ matchRuns b s k
  | .opt a, s, k => matchRuns a s k ++ [(s, k)]
  | .group i a, s, k =>
    (matchRuns a s k).map (fun p =>
      (p.1, fun j => if j = i then some ⟨s.take (s.length - p.1.length)⟩ else p.2 j))

/-- Python `re.search`: try the pattern at each start position from the left;
at the first position with a match, commit to the backtracking-preferred one
and return its captures. -/
def searchFrom (re : Regex) : List Char → Option Caps
  | [] =>
    match (matchRuns re [] emptyCaps).head? with
    | some p => some p.2
    | none => none
  | a :: t =>
    match (matchRuns re (a :: t) emptyCaps).head? with
    | some p => some p.2
    | none => searchFrom re t

/-- The capture-group numbers bound anywhere inside a regex. -/
def Regex.groupIdxs : Regex → List Nat
  | .eps | .str _ | .cls _ | .star _ => []
  | .seq a b | .alt a b => a.groupIdxs ++ b.groupIdxs
  | .opt a => a.groupIdxs
  | .group i a => i :: a.groupIdxs

/-- Shorthand: a literal string pattern. -/
def rStr (w : String) : Regex := .str w.data

/-- Shorthand: `+` (one or more) over a character class. -/
def rPlus (c : CClass) : Regex := .seq (.cls c) (.star c)

/-- The pattern `\s+`. -/
def ws1 : Regex := rPlus .space

/-- The pattern `\s*`. -/
def wsStar : Regex := Regex.star .space

/-- The coordinate-pair fragment `(\d+)(?:\s*,\s*|\s+)(\d+)(?:\))?` shared by
the click and move patterns, with the two capture groups numbered 1 and 2. -/
def coordTail : Regex :=
  .seq (.group 1 (rPlus .digit))
    (.seq (.alt (.seq wsStar (.seq (rStr ",") wsStar)) ws1)
      (.seq (.group 2 (rPlus .digit)) (.opt (rStr ")"))))

/-- The fragment `(?:at\s+)?(?:position\s+)?(?:\()?` followed by `coordTail`. -/
def atPosCoord : Regex :=
  .seq (.opt (.seq (rStr "at") ws1))
    (.seq (.opt (.seq (rStr "position") ws1))
      (.seq (.opt (rStr "(")) coordTail))

/-- Click rule 1: `right\s+click\s+(?:at\s+)?(?:position\s+)?(?:\()?(\d+)(?:\s*,\s*|\s+)(\d+)(?:\))?` -/
def clickPatRight : Regex :=
  .seq (rStr "right") (.seq ws1 (.seq (rStr "click") (.seq ws1 atPosCoord)))

/-- Click rule 2: `double\s+click\s+(?:at\s+)?(?:position\s+)?(?:\()?(\d+)(?:\s*,\s*|\s+)(\d+)(?:\))?` -/
def clickPatDouble : Regex :=
  .seq (rStr "double") (.seq ws1 (.seq (rStr "click") (.seq ws1 atPosCoord)))

/-- Click rule 3: `(?:left\s+)?click\s+(?:at\s+)?(?:position\s+)?(?:\()?(\d+)(?:\s*,\s*|\s+)(\d+)(?:\))?` -/
def clickPatGeneric : Regex :=
  .seq (.opt (.seq (rStr "left") ws1)) (.seq (rStr "click") (.seq ws1 atPosCoord))

/-- A quoted-text pattern `VERB\s+["\']([^"\']+)["\']`. -/
def quotedPat (verb : String) : Regex :=
  .seq (rStr verb) (.seq ws1 (.seq (.cls .quote) (.seq (.group 1 (rPlus .notQuote)) (.cls .quote))))

/-- A single-key pattern `VERB\s+(?:the\s+)?(\w+)(?:\s+key)?`. -/
def singleKeyPat (verb : String) : Regex :=
  .seq (rStr verb) (.seq ws1 (.seq (.opt (.seq (rStr "the") ws1))
    (.seq (.group 1 (rPlus .word)) (.opt (.seq ws1 (rStr "key"))))))

/-- The combination fragment `(\w+)\s*\+\s*(\w+)`. -/
def comboPat : Regex :=
  .seq (.group 1 (rPlus .word)) (.seq wsStar (.seq (rStr "+") (.seq wsStar (.group 2 (rPlus .word)))))

/-- Key rule 3: `press\s+(\w+)\s*\+\s*(\w+)`. -/
def pressComboPat : Regex := .seq (rStr "press") (.seq ws1 comboPat)

/-- The alternation `(up|down)`. -/
def dirAlt : Regex := .alt (rStr "up") (rStr "down")

/-- Scroll rule 1: `scroll\s+(up|down)(?:\s+(\d+))?`. -/
def scrollPatDir : Regex :=
  .seq (rStr "scroll") (.seq ws1 (.seq (.group 1 dirAlt)
    (.opt (.seq ws1 (.group 2 (rPlus .digit))))))

/-- Scroll rule 2: `scroll\s+(\d+)\s+times?\s+(up|down)`. -/
def scrollPatCount : Regex :=
  .seq (rStr "scroll") (.seq ws1 (.seq (.group 1 (rPlus .digit))
    (.seq ws1 (.seq (rStr "time") (.seq (.opt (rStr "s")) (.seq ws1 (.group 2 dirAlt)))))))

/-- A move pattern `move\s+(?:WORD\s+)?(?:to\s+)?(?:position\s+)?(?:\()?...coords`. -/
def movePat (word : String) : Regex :=
  .seq (rStr "move") (.seq ws1 (.seq (.opt (.seq (rStr word) ws1))
    (.seq (.opt (.seq (rStr "to") ws1)) (.seq (.opt (.seq (rStr "position") ws1))
      (.seq (.opt (rStr "(")) coordTail)))))

/-- Screenshot rule 1: `take\s+(?:a\s+)?screenshot`. -/
def screenshotPatTake : Regex :=
  .seq (rStr "take") (.seq ws1 (.seq (.opt (.seq (rStr "a") ws1)) (rStr "screenshot")))

/-- Screenshot rule 2: `capture\s+screen`. -/
def screenshotPatCapture : Regex := .seq (rStr "capture") (.seq ws1 (rStr "screen"))

/-- The parameter-extraction strategy tags of `_initialize_patterns`. -/
inductive ExtractorKind where
  | coordinates
  | right_coordinates
  | double_coordinates
  | text
  | single_key
  | key_combo
  | direction
  | direction_count
  | simple
deriving DecidableEq, Repr

/-- A recognition rule: action category, pattern, extractor tag. -/
structure Rule where
  category : String
  pattern : Regex
  kind : ExtractorKind

/-- The ordered rule table of `_initialize_patterns`, flattened in Python's
dict-insertion iteration order: categories click, type, key, scroll, move,
screenshot; rules in listed order within each category. -/
def rulesList : List Rule :=
  [ ⟨"click", clickPatRight, .right_coordinates⟩,
    ⟨"click", clickPatDouble, .double_coordinates⟩,
    ⟨"click", clickPatGeneric, .coordinates⟩,
    ⟨"type", quotedPat "type", .text⟩,
    ⟨"type", quotedPat "write", .text⟩,
    ⟨"type", quotedPat "enter", .text⟩,
    ⟨"type", quotedPat "input", .text⟩,
    ⟨"key", singleKeyPat "press", .single_key⟩,
    ⟨"key", singleKeyPat "hit", .single_key⟩,
    ⟨"key", pressComboPat, .key_combo⟩,
    ⟨"key", comboPat, .key_combo⟩,
    ⟨"scroll", scrollPatDir, .direction⟩,
    ⟨"scroll", scrollPatCount, .direction_count⟩,
    ⟨"move", movePat "mouse", .coordinates⟩,
    ⟨"move", movePat "cursor", .coordinates⟩,
    ⟨"screenshot", screenshotPatTake, .simple⟩,
    ⟨"screenshot", screenshotPatCapture, .simple⟩,
    ⟨"screenshot", rStr "screenshot", .simple⟩ ]

/-- Python `int()` applied to a captured string.  All captures fed to it by
the source come from `\d+`, so it is a plain decimal-digit parse; a
non-numeric string raises `ValueError`, modelled as `none`. -/
def pyToInt (s : String) : Option Int :=
  if s.data ≠ [] ∧ s.data.all (·.isDigit) then
    some (s.data.foldl (fun acc c => acc * 10 + (c.toNat - '0'.toNat : Int)) 0)
  else none

/-- The key-name synonym table of the `single_key` extractor
(`key_mapping.get(key, key)`). -/
def keyMapping (k : String) : String :=
  if k = "enter" then "enter" else if k = "return" then "enter"
  else if k = "space" then "space" else if k = "spacebar" then "space"
  else if k = "tab" then "tab" else if k = "escape" then "esc"
  else if k = "esc" then "esc" else if k = "delete" then "delete"
  else if k = "backspace" then "backspace" else if k = "ctrl" then "ctrl"
  else if k = "alt" then "alt" else if k = "shift" then "shift"
  else if k = "windows" then "winleft" else if k = "win" then "winleft"
  else if k = "cmd" then "cmd"
  else if k = "f1" then "f1" else if k = "f2" then "f2" else if k = "f3" then "f3"
  else if k = "f4" then "f4" else if k = "f5" then "f5" else if k = "f6" then "f6"
  else if k = "f7" then "f7" else if k = "f8" then "f8" else if k = "f9" then "f9"
  else if k = "f10" then "f10" else if k = "f11" then "f11" else if k = "f12" then "f12"
  else if k = "up" then "up" else if k = "down" then "down"
  else if k = "left" then "left" else if k = "right" then "right"
  else if k = "home" then "home" else if k = "end" then "end"
  else if k = "pageup" then "pageup" else if k = "pagedown" then "pagedown"
  else k

/-- The modifier synonym table of the `key_combo` extractor. -/
def comboKeyMapping (k : String) : String :=
  if k = "ctrl" then "ctrl" else if k = "control" then "ctrl"
  else if k = "alt" then "alt" else if k = "shift" then "shift"
  else if k = "cmd" then "cmd" else if k = "command" then "cmd"
  else if k = "win" then "winleft" else if k = "windows" then "winleft"
  else k

/-- The parameter mapping of a `ParsedIntent`.  The source stores a Python
dict whose possible keys are fixed per extractor kind; each field is `none`
when the key is absent. -/
structure Params where
  x : Option Int := none
  y : Option Int := none
  button : Option String := none
  clicks : Option Int := none
  text : Option String := none
  key : Option String := none
  keys : Option (List String) := none
  direction : Option String := none
deriving DecidableEq, Repr

/-- `_extract_parameters`: given the captures of a successful match and the
rule's extractor kind, produce the typed parameter mapping; `none` models the
`ValueError`/`IndexError` path that the source catches and converts to
`None`.  The `action_type` argument is accepted (as in the source signature)
but unused. -/
def extractParameters (caps : Caps) (kind : ExtractorKind) (_actionType : String) :
    Option Params :=
  match kind with
  | .coordinates => do
    let sx ← caps 1
    let sy ← caps 2
    let x ← pyToInt sx
    let y ← pyToInt sy
    some { x := some x, y := some y, button := some "left" }
  | .right_coordinates => do
    let sx ← caps 1
    let sy ← caps 2
    let x ← pyToInt sx
    let y ← pyToInt sy
    some { x := some x, y := some y, button := some "right" }
  | .double_coordinates => do
    let sx ← caps 1
    let sy ← caps 2
    let x ← pyToInt sx
    let y ← pyToInt sy
    some { x := some x, y := some y, button := some "left", clicks := some 2 }
  | .text => do
    let t ← caps 1
    some { text := some t }
  | .single_key => do
    let k ← caps 1
    some { key := some (keyMapping (pyLowerStr k)) }
  | .key_combo => do
    let k1 ← caps 1
    let k2 ← caps 2
    some { keys := some [comboKeyMapping (pyLowerStr k1), comboKeyMapping (pyLowerStr k2)] }
  | .direction => do
    let d ← caps 1
    let clicks ← match caps 2 with
      | some s => pyToInt s
      | none => some 3
    some { direction := some d, clicks := some clicks }
  | .direction_count => do
    let s ← caps 1
    let n ← pyToInt s
    let d ← caps 2
    some { direction := some d, clicks := some n }
  | .simple => some {}

/-- The fixed confidence constant `0.8` assigned to every successful match,
as the rational `4/5` (kernel-reducible form). -/
def confidence08 : ℚ := ⟨4, 5, by decide, by decide⟩

/-- The fixed double-click delay `time.sleep(0.1)`, in seconds, as the
rational `1/10` (kernel-reducible form). -/
def sleepDelay : ℚ := ⟨1, 10, by decide, by decide⟩

/-- `ParsedIntent`: the structured output of successful interpretation. -/
structure ParsedIntent where
  action_type : String
  parameters : Params
  confidence : ℚ
  raw_command : String
deriving DecidableEq, Repr

/-- The rule traversal of `parse_command`, parameterized by the extraction
function: first rule whose pattern matches and whose extraction succeeds
wins; a rule whose extraction returns `None` falls through the
`if parameters is not None` guard and the loop continues. -/
def findIntent (extract : Caps → ExtractorKind → String → Option Params) :
    List Rule → List Char → Option ParsedIntent
  | [], _ => none
  | r :: rest, cmd =>
    match searchFrom r.pattern cmd with
    | some caps =>
      match extract caps r.kind r.category with
      | some ps => some ⟨r.category, ps, confidence08, ⟨cmd⟩⟩
      | none => findIntent extract rest cmd
    | none => findIntent extract rest cmd

/-- `parse_command`, parameterized by the extraction function (the source
fixes it to `_extract_parameters`): preprocess with `lower().strip()`,
return `None` on an empty result, else traverse the rule table. -/
def parseCommandWith (extract : Caps → ExtractorKind → String → Option Params)
    (command : String) : Option ParsedIntent :=
  let cmd := normCmd command
  if cmd = "" then none
  else findIntent extract rulesList cmd.data

/-- `IntentParser.parse_command`. -/
def parseCommand : String → Option ParsedIntent :=
  parseCommandWith extractParameters

/-- `ActionResult`: success flag, message, action type. -/
structure ActionResult where
  success : Bool
  message : String
  action_type : String
deriving DecidableEq, Repr

/-- An observable call the dispatcher makes: actuator invocations and the
fixed `time.sleep(0.1)` delay of the double-click sequence. -/
inductive ActCall where
  | click (x y : Option Int) (button : String)
  | sleep (seconds : ℚ)
  | typeText (text : Option String)
  | pressKey (key : Option String)
  | hotkey (keys : List String)
  | scroll (direction : Option String) (clicks : Int)
  | move (x y : Option Int)
  | screenshot
deriving DecidableEq, Repr

/-- The actuator capability interface consumed by the dispatcher.  Calls that
the Python engine could complete by raising an exception return
`Except String ActionResult` (`error` carries `str(e)`); `click` is indexed
by the number of click calls already issued in this dispatch, so the two
calls of a double-click may answer differently.  `take_screenshot` catches
internally in both engine implementations and returns `Optional[str]`, so it
is modelled as a plain `Option String`. -/
structure Actuator where
  click : Nat → Option Int → Option Int → String → Except String ActionResult
  typeText : Option String → Except String ActionResult
  pressKey : Option String → Except String ActionResult
  hotkey : List String → Except String ActionResult
  scroll : Option String → Int → Except String ActionResult
  move : Option Int → Option Int → Except String ActionResult
  screenshot : Option String

/-- The body of `_execute_action` (the content of its `try` block): the
per-category dispatch, returning the raw outcome together with the trace of
calls issued before returning or raising. -/
def executeBody (act : Actuator) (intent : ParsedIntent) :
    Except String ActionResult × List ActCall :=
  let p := intent.parameters
  if intent.action_type = "click" then
    let x := p.x
    let y := p.y
    let button := p.button.getD "left"
    let clicks := p.clicks.getD 1
    if clicks = 2 then
      match act.click 0 x y button with
      | .error e => (.error e, [.click x y button])
      | .ok _r1 =>
        match act.click 1 x y button with
        | .error e => (.error e, [.click x y button, .sleep sleepDelay, .click x y button])
        | .ok r2 => (.ok r2, [.click x y button, .sleep sleepDelay, .click x y button])
    else
      (act.click 0 x y button, [.click x y button])
  else if intent.action_type = "type" then
    (act.typeText p.text, [.typeText p.text])
  else if intent.action_type = "key" then
    match p.keys with
    | some ks => (act.hotkey ks, [.hotkey ks])
    | none => (act.pressKey p.key, [.pressKey p.key])
  else if intent.action_type = "scroll" then
    (act.scroll p.direction (p.clicks.getD 3), [.scroll p.direction (p.clicks.getD 3)])
  else if intent.action_type = "move" then
    (act.move p.x p.y, [.move p.x p.y])
  else if intent.action_type = "screenshot" then
    match act.screenshot with
    | some path => (.ok ⟨true, "Screenshot saved as " ++ path, "screenshot"⟩, [.screenshot])
    | none => (.ok ⟨false, "Failed to take screenshot", "screenshot"⟩, [.screenshot])
  else
    (.ok ⟨false, "Unknown action type: " ++ intent.action_type, "unknown"⟩, [])

/-- `IntentApparatus._execute_action`: run the dispatch body and convert any
exception into a failure `ActionResult` carrying `str(e)` and the intent's
category (the `except Exception` clause). -/
def executeAction (act : Actuator) (intent : ParsedIntent) : ActionResult × List ActCall :=
  match executeBody act intent with
  | (.ok r, tr) => (r, tr)
  | (.error e, tr) => (⟨false, "Execution error: " ++ e, intent.action_type⟩, tr)

/-- A single apostrophe, as it occurs inside source message strings. -/
def apos : String := ⟨['\'']⟩

/-- `MockAutomationEngine.scroll`: reject a direction other than `up`/`down`,
otherwise report a simulated scroll.  A `None` direction makes
`direction.lower()` raise `AttributeError`, which the method's own
`except` clause converts to a failure result. -/
def mockScroll (direction : Option String) (clicks : Int) : ActionResult :=
  match direction with
  | none =>
    ⟨false, "Failed to scroll: " ++ apos ++ "NoneType" ++ apos ++
      " object has no attribute " ++ apos ++ "lower" ++ apos, "scroll"⟩
  | some d =>
    if !(pyLowerStr d = "up" || pyLowerStr d = "down") then
      ⟨false, "Invalid scroll direction: " ++ d, "scroll"⟩
    else
      ⟨true, "[SIMULATED] Scrolled " ++ d ++ " " ++ toString clicks ++ " clicks", "scroll"⟩

/-- `AutomationEngine.scroll`, with the `pyautogui.scroll` primitive abstract
(`py` returns `error str(e)` when it raises): scroll up on `up`, down on
`down`, otherwise return the invalid-direction failure. -/
def engineScroll (py : Int → Except String Unit) (direction : Option String)
    (clicks : Int) : ActionResult :=
  match direction with
  | none =>
    ⟨false, "Failed to scroll: " ++ apos ++ "NoneType" ++ apos ++
      " object has no attribute " ++ apos ++ "lower" ++ apos, "scroll"⟩
  | some d =>
    if pyLowerStr d = "up" then
      match py clicks with
      | .ok _ => ⟨true, "Scrolled " ++ d ++ " " ++ toString clicks ++ " clicks", "scroll"⟩
      | .error e => ⟨false, "Failed to scroll: " ++ e, "scroll"⟩
    else if pyLowerStr d = "down" then
      match py (-clicks) with
      | .ok _ => ⟨true, "Scrolled " ++ d ++ " " ++ toString clicks ++ " clicks", "scroll"⟩
      | .error e => ⟨false, "Failed to scroll: " ++ e, "scroll"⟩
    else
      ⟨false, "Invalid scroll direction: " ++ d, "scroll"⟩

/-- An execution-history entry: the raw command and its result. -/
abbrev HistoryEntry : Type := String × ActionResult

/-- The append performed by `process_command`
(`self.execution_history.append((command, result))`). -/
def recordEntry (h : List HistoryEntry) (c : String) (r : ActionResult) :
    List HistoryEntry :=
  h ++ [(c, r)]

/-- The display slice `self.execution_history[-10:]` taken by
`get_execution_history`: the last 10 entries (all of them when fewer). -/
def recentEntries (h : List HistoryEntry) : List HistoryEntry :=
  h.drop (h.length - 10)

/-- `IntentApparatus.clear_history` empties the log. -/
def clearHistory : List HistoryEntry := []

/-- `IntentApparatus.get_execution_history`: format the last 10 entries,
numbered from 1, with a status icon and the result message. -/
def getExecutionHistory (h : List HistoryEntry) : String :=
  if h = [] then "No commands executed yet."
  else
    String.intercalate "\n"
      ((List.enumFrom 1 (recentEntries h)).map (fun p =>
        toString p.1 ++ ". " ++ (if p.2.2.success then "✅" else "❌") ++
          " `" ++ p.2.1 ++ "` - " ++ p.2.2.message))

/-- `IntentParser.get_action_examples`: the example catalogue, category by
category in declaration order. -/
def getActionExamples : List (String × List String) :=
  [ ("click", ["click at 100, 200", "left click at position (300, 400)",
      "right click at 150, 250", "double click at 500, 600"]),
    ("type", ["type \"Hello World\"", "write \"This is a test\"",
      "enter \"some text here\"", "input \"username123\""]),
    ("key", ["press enter", "hit the space key", "press ctrl+c", "alt+tab"]),
    ("scroll", ["scroll up", "scroll down 5", "scroll 3 times up"]),
    ("move", ["move mouse to 100, 200", "move cursor to position (300, 400)"]),
    ("screenshot", ["take a screenshot", "capture screen", "screenshot"]) ]

/-- `IntentApparatus._get_example_commands`: header, then per category an
upper-cased title line and the first two examples as bullets. -/
def getExampleCommands : String :=
  "**Example commands:**\n\n" ++
    String.intercalate "\n"
      (getActionExamples.flatMap (fun p =>
        ("**" ++ pyUpperStr p.1 ++ ":**") :: (p.2.take 2).map (fun c => "  • " ++ c)))

/-- The environment `process_command` runs against: the actuator and the
`os.path.abspath` resolver. -/
structure AppEnv where
  act : Actuator
  abspath : String → String

/-- `IntentApparatus.process_command`: blank guard, parse, dispatch, record,
format the response triple (status, message, screenshot path).  The third
component is `Option String` because the Python variable can end up holding
`None` when `take_screenshot` fails. -/
def processCommand (env : AppEnv) (h : List HistoryEntry) (command : String) :
    (String × String × Option String) × List HistoryEntry :=
  if pyStrip command = "" then
    (("❌ Error", "Please enter a command.", some ""), h)
  else
    match parseCommand command with
    | none =>
      (("❌ Unable to parse command",
        "Could not understand the command: " ++ apos ++ command ++ apos ++ "\n\n" ++
          getExampleCommands, some ""), h)
    | some intent =>
      let result := (executeAction env.act intent).1
      let h' := recordEntry h command result
      let status := if result.success then "✅ Success" else "❌ Error"
      let screenshotPath : Option String :=
        if result.success && (intent.action_type = "click" ||
            intent.action_type = "move" || intent.action_type = "screenshot") then
          match env.act.screenshot with
          | some path => if path ≠ "" then some (env.abspath path) else some path
          | none => none
        else some ""
      ((status, result.message, screenshotPath), h')

/-- A hypothetical extraction function that fails (returns `None`) exactly on
the `right_coordinates` extractor kind and otherwise behaves like
`_extract_parameters`; used to exhibit the traversal's behavior when
extraction fails after a pattern match. -/
def failingExtract (caps : Caps) (kind : ExtractorKind) (actionType : String) :
    Option Params :=
  if kind = .right_coordinates then none else extractParameters caps kind actionType

/-- A concrete actuator whose first click call reports failure and whose
second reports success, with all other capabilities succeeding. -/
def dcActuator : Actuator where
  click := fun n _ _ b =>
    .ok ⟨n = 1, "click number " ++ toString n ++ " with " ++ b ++ " button", "click"⟩
  typeText := fun _ => .ok ⟨true, "typed", "type"⟩
  pressKey := fun _ => .ok ⟨true, "pressed", "key_press"⟩
  hotkey := fun _ => .ok ⟨true, "combination", "key_combination"⟩
  scroll := fun d n => .ok (mockScroll d n)
  move := fun _ _ => .ok ⟨true, "moved", "mouse_move"⟩
  screenshot := some "screenshot_1.png"

/-- A concrete actuator every one of whose fallible calls raises. -/
def raisingActuator : Actuator where
  click := fun _ _ _ _ => .error "click boom"
  typeText := fun _ => .error "type boom"
  pressKey := fun _ => .error "key boom"
  hotkey := fun _ => .error "hotkey boom"
  scroll := fun _ _ => .error "scroll boom"
  move := fun _ _ => .error "move boom"
  screenshot := none

/-- The double-click intent parsed from `"double click at 5,5"`. -/
def dcIntent : ParsedIntent :=
  ⟨"click", { x := some 5, y := some 5, button := some "left", clicks := some 2 },
    confidence08, "double click at 5,5"⟩

/-- A single-click intent (no `clicks` key in its parameters). -/
def scIntent : ParsedIntent :=
  ⟨"click", { x := some 1, y := some 2, button := some "right" }, confidence08, "right click at 1,2"⟩

/-- An intent with a category no dispatcher branch handles. -/
def unknownIntent : ParsedIntent := ⟨"dance", {}, confidence08, "dance"⟩

/-- A concrete capture environment binding group 1 to `up` and nothing else. -/
def upOnlyCaps : Caps := fun j => if j = 1 then some "up" else none

/-- A concrete 15-entry history. -/
def history15 : List HistoryEntry :=
  List.replicate 15 ("click at 1,2", ⟨true, "ok", "click"⟩)

/-- A concrete processing environment: the two-phase click actuator and an
identity path resolver. -/
def dcEnv : AppEnv := ⟨dcActuator, id⟩

/-- Lowering a character twice is the same as lowering it once. -/
theorem pyLowerChar_idem (c : Char) : pyLowerChar (pyLowerChar c) = pyLowerChar c := by
  by_cases h0 : c = 'A'
  · subst h0; decide
  by_cases h1 : c = 'B'
  · subst h1; decide
  by_cases h2 : c = 'C'
  · subst h2; decide
  by_cases h3 : c = 'D'
  · subst h3; decide
  by_cases h4 : c = 'E'
  · subst h4; decide
  by_cases h5 : c = 'F'
  · subst h5; decide
  by_cases h6 : c = 'G'
  · subst h6; decide
  by_cases h7 : c = 'H'
  · subst h7; decide
  by_cases h8 : c = 'I'
  · subst h8; decide
  by_cases h9 : c = 'J'
  · subst h9; decide
  by_cases h10 : c = 'K'
  · subst h10; decide
  by_cases h11 : c = 'L'
  · subst h11; decide
  by_cases h12 : c = 'M'
  · subst h12; decide
  by_cases h13 : c = 'N'
  · subst h13; decide
  by_cases h14 : c = 'O'
  · subst h14; decide
  by_cases h15 : c = 'P'
  · subst h15; decide
  by_cases h16 : c = 'Q'
  · subst h16; decide
  by_cases h17 : c = 'R'
  · subst h17; decide
  by_cases h18 : c = 'S'
  · subst h18; decide
  by_cases h19 : c = 'T'
  · subst h19; decide
  by_cases h20 : c = 'U'
  · subst h20; decide
  by_cases h21 : c = 'V'
  · subst h21; decide
  by_cases h22 : c = 'W'
  · subst h22; decide
  by_cases h23 : c = 'X'
  · subst h23; decide
  by_cases h24 : c = 'Y'
  · subst h24; decide
  by_cases h25 : c = 'Z'
  · subst h25; decide
  simp only [pyLowerChar, if_neg h0, if_neg h1, if_neg h2, if_neg h3, if_neg h4, if_neg h5, if_neg h6, if_neg h7, if_neg h8, if_neg h9, if_neg h10, if_neg h11, if_neg h12, if_neg h13, if_neg h14, if_neg h15, if_neg h16, if_neg h17, if_neg h18, if_neg h19, if_neg h20, if_neg h21, if_neg h22, if_neg h23, if_neg h24, if_neg h25]

/-- Lowering preserves whitespace-ness of a character. -/
theorem isPyWs_pyLowerChar (c : Char) : isPyWs (pyLowerChar c) = isPyWs c := by
  by_cases g0 : c = 'A'
  · subst g0; decide
  by_cases g1 : c = 'B'
  · subst g1; decide
  by_cases g2 : c = 'C'
  · subst g2; decide
  by_cases g3 : c = 'D'
  · subst g3; decide
  by_cases g4 : c = 'E'
  · subst g4; decide
  by_cases g5 : c = 'F'
  · subst g5; decide
  by_cases g6 : c = 'G'
  · subst g6; decide
  by_cases g7 : c = 'H'
  · subst g7; decide
  by_cases g8 : c = 'I'
  · subst g8; decide
  by_cases g9 : c = 'J'
  · subst g9; decide
  by_cases g10 : c = 'K'
  · subst g10; decide
  by_cases g11 : c = 'L'
  · subst g11; decide
  by_cases g12 : c = 'M'
  · subst g12; decide
  by_cases g13 : c = 'N'
  · subst g13; decide
  by_cases g14 : c = 'O'
  · subst g14; decide
  by_cases g15 : c = 'P'
  · subst g15; decide
  by_cases g16 : c = 'Q'
  · subst g16; decide
  by_cases g17 : c = 'R'
  · subst g17; decide
  by_cases g18 : c = 'S'
  · subst g18; decide
  by_cases g19 : c = 'T'
  · subst g19; decide
  by_cases g20 : c = 'U'
  · subst g20; decide
  by_cases g21 : c = 'V'
  · subst g21; decide
  by_cases g22 : c = 'W'
  · subst g22; decide
  by_cases g23 : c = 'X'
  · subst g23; decide
  by_cases g24 : c = 'Y'
  · subst g24; decide
  by_cases g25 : c = 'Z'
  · subst g25; decide
  simp only [pyLowerChar, if_neg g0, if_neg g1, if_neg g2, if_neg g3, if_neg g4, if_neg g5, if_neg g6, if_neg g7, if_neg g8, if_neg g9, if_neg g10, if_neg g11, if_neg g12, if_neg g13, if_neg g14, if_neg g15, if_neg g16, if_neg g17, if_neg g18, if_neg g19, if_neg g20, if_neg g21, if_neg g22, if_neg g23, if_neg g24, if_neg g25]

/-- Dropping while a predicate holds is idempotent. -/
theorem dropWhile_dropWhile (p : Char → Bool) :
    ∀ l : List Char, (l.dropWhile p).dropWhile p = l.dropWhile p
  | [] => rfl
  | a :: t => by
    by_cases h : p a
    · simp only [List.dropWhile_cons, h, if_true]
      exact dropWhile_dropWhile p t
    · simp [List.dropWhile_cons, h]

/-- The head surviving a `dropWhile` does not satisfy the predicate. -/
theorem head_dropWhile_not (p : Char → Bool) :
    ∀ (l : List Char) {a : Char}, (l.dropWhile p).head? = some a → p a = false := by
  intro l
  induction l with
  | nil => intro a h; simp at h
  | cons b t ih =>
    intro a h
    by_cases hb : p b
    · rw [List.dropWhile_cons, if_pos hb] at h
      exact ih h
    · rw [List.dropWhile_cons, if_neg hb] at h
      simp only [List.head?_cons, Option.some.injEq] at h
      subst h
      exact Bool.eq_false_iff.mpr hb

/-- Every list splits as a kept prefix followed by its `dropWhile`. -/
theorem exists_dropWhile_decomp (p : Char → Bool) :
    ∀ l : List Char, ∃ t, l = t ++ l.dropWhile p
  | [] => ⟨[], rfl⟩
  | a :: l => by
    by_cases h : p a
    · obtain ⟨t, ht⟩ := exists_dropWhile_decomp p l
      exact ⟨a :: t, by simp [List.dropWhile_cons, h, ← ht]⟩
    · exact ⟨[], by simp [List.dropWhile_cons, h]⟩

/-- A list whose head fails the predicate is unchanged by `dropWhile`. -/
theorem dropWhile_eq_self_of_head (p : Char → Bool) (l : List Char)
    (h : ∀ a, l.head? = some a → p a = false) : l.dropWhile p = l := by
  cases l with
  | nil => rfl
  | cons a t =>
    have := h a rfl
    simp [List.dropWhile_cons, this]

/-- The head of a stripped command is never Python whitespace. -/
theorem pyStripList_head_not {l : List Char} {a : Char}
    (h : (pyStripList l).head? = some a) : isPyWs a = false := by
  unfold pyStripList at h
  rw [List.head?_reverse] at h
  obtain ⟨t, ht⟩ := exists_dropWhile_decomp isPyWs ((l.dropWhile isPyWs).reverse)
  have h2 : ((l.dropWhile isPyWs).reverse).getLast? = some a := by
    rw [ht, List.getLast?_append, h]
    rfl
  have h3 : (l.dropWhile isPyWs).head? = some a := by
    have := List.head?_reverse (l.dropWhile isPyWs).reverse
    rw [List.reverse_reverse] at this
    rw [this]
    exact h2
  exact head_dropWhile_not isPyWs l h3

/-- Stripping is idempotent. -/
theorem pyStripList_idem (l : List Char) : pyStripList (pyStripList l) = pyStripList l := by
  have h1 : (pyStripList l).dropWhile isPyWs = pyStripList l :=
    dropWhile_eq_self_of_head _ _ (fun a ha => pyStripList_head_not ha)
  show ((((pyStripList l).dropWhile isPyWs).reverse).dropWhile isPyWs).reverse = pyStripList l
  rw [h1]
  have h2 : (pyStripList l).reverse = ((l.dropWhile isPyWs).reverse).dropWhile isPyWs := by
    simp [pyStripList]
  rw [h2, dropWhile_dropWhile, ← h2, List.reverse_reverse]

/-- Lowering commutes with stripping. -/
theorem map_pyLowerChar_pyStripList (l : List Char) :
    (pyStripList l).map pyLowerChar = pyStripList (l.map pyLowerChar) := by
  have hfun : (isPyWs ∘ pyLowerChar) = isPyWs := funext isPyWs_pyLowerChar
  unfold pyStripList
  rw [List.dropWhile_map, hfun, ← List.map_reverse, List.dropWhile_map, hfun,
    ← List.map_reverse]

/-- Lowering a string twice is the same as lowering it once (list form). -/
theorem map_pyLowerChar_idem (l : List Char) :
    (l.map pyLowerChar).map pyLowerChar = l.map pyLowerChar := by
  rw [List.map_map]
  exact List.map_congr_left (fun a _ => pyLowerChar_idem a)

/-- The preprocessing `lower().strip()` of `parse_command` is idempotent. -/
theorem normCmd_idem (s : String) : normCmd (normCmd s) = normCmd s := by
  show (⟨pyStripList ((pyStripList (s.data.map pyLowerChar)).map pyLowerChar)⟩ : String) =
    ⟨pyStripList (s.data.map pyLowerChar)⟩
  rw [map_pyLowerChar_pyStripList, map_pyLowerChar_idem, pyStripList_idem]

/-- A command that strips to empty also normalizes to empty. -/
theorem normCmd_eq_empty {s : String} (h : pyStrip s = "") : normCmd s = "" := by
  have hl : pyStripList s.data = [] := congrArg String.data h
  show (⟨pyStripList (s.data.map pyLowerChar)⟩ : String) = ""
  rw [← map_pyLowerChar_pyStripList, hl]
  rfl

/-- A successful literal consumption decomposes the input. -/
theorem eatLit_eq : ∀ (cs s rest : List Char), eatLit cs s = some rest → s = cs ++ rest
  | [], s, rest => by
    intro h
    simp only [eatLit, Option.some.injEq] at h
    simp [h]
  | c :: cs, [], rest => by
    intro h
    simp [eatLit] at h
  | c :: cs, a :: t, rest => by
    intro h
    by_cases hac : a = c
    · subst hac
      rw [eatLit, if_pos rfl] at h
      have := eatLit_eq cs t rest h
      simp [this]
    · rw [eatLit, if_neg hac] at h
      simp at h

/-- A capture group over an alternation of two literals binds its index to
one of the two literal strings. -/
theorem caps_of_group_alt_str {i : Nat} {u v : List Char} {s rest : List Char}
    {k0 k : Caps}
    (h : (rest, k) ∈ matchRuns (.group i (.alt (.str u) (.str v))) s k0) :
    k i = some ⟨u⟩ ∨ k i = some ⟨v⟩ := by
  simp only [matchRuns, List.mem_map, List.mem_append] at h
  obtain ⟨p, hp, heq⟩ := h
  have hk : k = fun j => if j = i then some ⟨s.take (s.length - p.1.length)⟩ else p.2 j := by
    have := congrArg Prod.snd heq
    exact this.symm
  rcases hp with hp | hp
  · left
    rcases hu : eatLit u s with _ | r
    · simp only [matchRuns, hu] at hp
      exact absurd hp (List.not_mem_nil p)
    · simp only [matchRuns, hu, List.mem_singleton] at hp
      subst hp
      have hs := eatLit_eq u s r hu
      rw [hk]
      simp only [if_pos rfl, Option.some.injEq]
      rw [hs]
      simp [List.take_left]
  · right
    rcases hv : eatLit v s with _ | r
    · simp only [matchRuns, hv] at hp
      exact absurd hp (List.not_mem_nil p)
    · simp only [matchRuns, hv, List.mem_singleton] at hp
      subst hp
      have hs := eatLit_eq v s r hv
      rw [hk]
      simp only [if_pos rfl, Option.some.injEq]
      rw [hs]
      simp [List.take_left]


/-- A match does not touch capture groups whose index the regex never binds. -/
theorem caps_preserved (re : Regex) :
    ∀ {s rest : List Char} {k0 k : Caps} {j : Nat},
      (rest, k) ∈ matchRuns re s k0 → j ∉ re.groupIdxs → k j = k0 j := by
  induction re with
  | eps =>
    intro s rest k0 k j h _
    simp only [matchRuns, List.mem_singleton, Prod.mk.injEq] at h
    rw [h.2]
  | str cs =>
    intro s rest k0 k j h _
    rcases hu : eatLit cs s with _ | r
    · simp only [matchRuns, hu] at h
      exact absurd h (List.not_mem_nil _)
    · simp only [matchRuns, hu, List.mem_singleton, Prod.mk.injEq] at h
      rw [h.2]
  | cls c =>
    intro s rest k0 k j h _
    cases s with
    | nil => simp [matchRuns] at h
    | cons a t =>
      simp only [matchRuns] at h
      split at h
      · simp only [List.mem_singleton, Prod.mk.injEq] at h
        rw [h.2]
      · exact absurd h (List.not_mem_nil _)
  | star c =>
    intro s rest k0 k j h _
    simp only [matchRuns, starSplits, List.mem_map] at h
    obtain ⟨n, _, heq⟩ := h
    simp only [Prod.mk.injEq] at heq
    rw [← heq.2]
  | seq a b iha ihb =>
    intro s rest k0 k j h hj
    simp only [matchRuns, List.mem_flatMap] at h
    obtain ⟨⟨pr, pk⟩, hp, hb⟩ := h
    simp only [Regex.groupIdxs, List.mem_append, not_or] at hj
    rw [ihb hb hj.2]
    exact iha hp hj.1
  | alt a b iha ihb =>
    intro s rest k0 k j h hj
    simp only [matchRuns, List.mem_append] at h
    simp only [Regex.groupIdxs, List.mem_append, not_or] at hj
    rcases h with h | h
    · exact iha h hj.1
    · exact ihb h hj.2
  | opt a iha =>
    intro s rest k0 k j h hj
    simp only [matchRuns, List.mem_append, List.mem_singleton] at h
    simp only [Regex.groupIdxs] at hj
    rcases h with h | h
    · exact iha h hj
    · simp only [Prod.mk.injEq] at h
      rw [h.2]
  | group i a iha =>
    intro s rest k0 k j h hj
    simp only [matchRuns, List.mem_map] at h
    obtain ⟨⟨pr, pk⟩, hp, heq⟩ := h
    simp only [Regex.groupIdxs, List.mem_cons, not_or] at hj
    simp only [Prod.mk.injEq] at heq
    rw [← heq.2]
    simp only [if_neg hj.1]
    exact iha hp hj.2

/-- Membership in a sequence match factors through an intermediate state. -/
theorem mem_matchRuns_seq {a b : Regex} {s rest : List Char} {k0 k : Caps}
    (h : (rest, k) ∈ matchRuns (.seq a b) s k0) :
    ∃ mid km, (mid, km) ∈ matchRuns a s k0 ∧ (rest, k) ∈ matchRuns b mid km := by
  simp only [matchRuns, List.mem_flatMap] at h
  obtain ⟨⟨mr, mk⟩, hm, hb⟩ := h
  exact ⟨mr, mk, hm, hb⟩

/-- A successful search commits to a match of the pattern at some suffix. -/
theorem searchFrom_inv (re : Regex) :
    ∀ (s : List Char) {caps : Caps}, searchFrom re s = some caps →
      ∃ t rest, (rest, caps) ∈ matchRuns re t emptyCaps := by
  intro s
  induction s with
  | nil =>
    intro caps h
    simp only [searchFrom] at h
    rcases hh : (matchRuns re [] emptyCaps).head? with _ | p
    · rw [hh] at h
      simp at h
    · rw [hh] at h
      simp only [Option.some.injEq] at h
      subst h
      exact ⟨[], p.1, List.mem_of_mem_head? (Option.mem_def.mpr hh)⟩
  | cons a t ih =>
    intro caps h
    simp only [searchFrom] at h
    rcases hh : (matchRuns re (a :: t) emptyCaps).head? with _ | p
    · rw [hh] at h
      obtain ⟨t', rest, hm⟩ := ih h
      exact ⟨t', rest, hm⟩
    · rw [hh] at h
      simp only [Option.some.injEq] at h
      subst h
      exact ⟨a :: t, p.1, List.mem_of_mem_head? (Option.mem_def.mpr hh)⟩

/-- A successful rule traversal exhibits the matched rule, its captures and
its extracted parameters. -/
theorem findIntent_inv (extract : Caps → ExtractorKind → String → Option Params) :
    ∀ (rules : List Rule) (cmd : List Char) {intent : ParsedIntent},
      findIntent extract rules cmd = some intent →
      ∃ r ∈ rules, ∃ caps, searchFrom r.pattern cmd = some caps ∧
        extract caps r.kind r.category = some intent.parameters ∧
        intent.action_type = r.category := by
  intro rules
  induction rules with
  | nil =>
    intro cmd intent h
    simp [findIntent] at h
  | cons r rs ih =>
    intro cmd intent h
    simp only [findIntent] at h
    rcases hs : searchFrom r.pattern cmd with _ | caps
    · simp only [hs] at h
      obtain ⟨r', hr', h'⟩ := ih cmd h
      exact ⟨r', List.mem_cons_of_mem _ hr', h'⟩
    · simp only [hs] at h
      rcases he : extract caps r.kind r.category with _ | ps
      · simp only [he] at h
        obtain ⟨r', hr', h'⟩ := ih cmd h
        exact ⟨r', List.mem_cons_of_mem _ hr', h'⟩
      · simp only [he, Option.some.injEq] at h
        subst h
        exact ⟨r, List.mem_cons_self r rs, caps, hs, he, rfl⟩

/-- Any match of the scroll direction rule binds group 1 to `up` or `down`. -/
theorem scrollPatDir_caps {s rest : List Char} {k0 k : Caps}
    (h : (rest, k) ∈ matchRuns scrollPatDir s k0) :
    k 1 = some "up" ∨ k 1 = some "down" := by
  unfold scrollPatDir at h
  obtain ⟨m1, km1, h1, h⟩ := mem_matchRuns_seq h
  obtain ⟨m2, km2, h2, h⟩ := mem_matchRuns_seq h
  obtain ⟨m3, km3, h3, h⟩ := mem_matchRuns_seq h
  have hdir : km3 1 = some "up" ∨ km3 1 = some "down" := by
    unfold dirAlt rStr at h3
    exact caps_of_group_alt_str h3
  have hpres : k 1 = km3 1 :=
    caps_preserved (.opt (.seq ws1 (.group 2 (rPlus .digit)))) h (by decide)
  rw [hpres]
  exact hdir

/-- Any match of the scroll count rule binds group 2 to `up` or `down`. -/
theorem scrollPatCount_caps {s rest : List Char} {k0 k : Caps}
    (h : (rest, k) ∈ matchRuns scrollPatCount s k0) :
    k 2 = some "up" ∨ k 2 = some "down" := by
  unfold scrollPatCount at h
  obtain ⟨m1, km1, h1, h⟩ := mem_matchRuns_seq h
  obtain ⟨m2, km2, h2, h⟩ := mem_matchRuns_seq h
  obtain ⟨m3, km3, h3, h⟩ := mem_matchRuns_seq h
  obtain ⟨m4, km4, h4, h⟩ := mem_matchRuns_seq h
  obtain ⟨m5, km5, h5, h⟩ := mem_matchRuns_seq h
  obtain ⟨m6, km6, h6, h⟩ := mem_matchRuns_seq h
  obtain ⟨m7, km7, h7, h⟩ := mem_matchRuns_seq h
  unfold dirAlt rStr at h
  exact caps_of_group_alt_str h

/-- A pyautogui-failure scroll message is never an invalid-direction message. -/
theorem failed_msg_ne_invalid_msg (e m : String) :
    "Failed to scroll: " ++ e ≠ "Invalid scroll direction: " ++ m := by
  intro h
  have h2 := congrArg String.data h
  rw [String.data_append, String.data_append] at h2
  have hF : ("Failed to scroll: ").data = 'F' :: ("ailed to scroll: ").data := rfl
  have hI : ("Invalid scroll direction: ").data = 'I' :: ("nvalid scroll direction: ").data := rfl
  rw [hF, hI, List.cons_append, List.cons_append] at h2
  have h3 := List.head_eq_of_cons_eq h2
  exact absurd h3 (by decide)

/-- C2: `parse_command` evaluates rules in fixed declaration order (categories
click, type, key, scroll, move, screenshot, rules in listed order within each
category) and returns the intent of the first matching rule; for
`"right click at 10,20"` the right-click rule wins (button `right`), never the
generic click rule, even though the generic pattern also matches the input. -/
theorem c2_rule_order_first_match :
    rulesList.map Rule.category =
      ["click", "click", "click", "type", "type", "type", "type",
       "key", "key", "key", "key", "scroll", "scroll", "move", "move",
       "screenshot", "screenshot", "screenshot"] ∧
    (∀ extract (r : Rule) rs (cmd : List Char) (caps : Caps) (ps : Params),
        searchFrom r.pattern cmd = some caps →
        extract caps r.kind r.category = some ps →
        findIntent extract (r :: rs) cmd = some ⟨r.category, ps, confidence08, ⟨cmd⟩⟩) ∧
    (searchFrom clickPatGeneric ("right click at 10,20").data).isSome = true ∧
    parseCommand "right click at 10,20" =
      some ⟨"click", { x := some 10, y := some 20, button := some "right" }, confidence08,
        "right click at 10,20"⟩ := by
  refine ⟨rfl, ?_, by decide, by decide⟩
  intro extract r rs cmd caps ps h1 h2
  simp only [findIntent, h1, h2]

/-- Witness for C2: the first-match conjunct applied to the head of the rule
table on the concrete command `"right click at 10,20"`. -/
theorem c2_witness :
    findIntent extractParameters rulesList ("right click at 10,20").data =
      some ⟨"click", { x := some 10, y := some 20, button := some "right" }, confidence08,
        "right click at 10,20"⟩ := by
  have h1 : (searchFrom clickPatRight ("right click at 10,20").data).isSome = true := by
    decide
  have h2 := c2_rule_order_first_match.2.1 extractParameters
    ⟨"click", clickPatRight, .right_coordinates⟩ (rulesList.drop 1)
    ("right click at 10,20").data
    ((searchFrom clickPatRight ("right click at 10,20").data).get h1)
    { x := some 10, y := some 20, button := some "right" }
    (Option.some_get h1).symm rfl
  exact h2

/-- C4: key synonym normalization.  `"press esc"` and `"press escape"` both
yield the canonical single key `esc`, and `"ctrl+c"` yields the ordered
combination `["ctrl","c"]`; but `"press ctrl+c"` is captured by the earlier
single-key rule and yields the single key `ctrl`, not the combination —
the dedicated `press\s+(\w+)\s*\+\s*(\w+)` rule is unreachable. -/
theorem c4_key_synonyms_eval :
    parseCommand "press esc" =
      some ⟨"key", { key := some "esc" }, confidence08, "press esc"⟩ ∧
    parseCommand "press escape" =
      some ⟨"key", { key := some "esc" }, confidence08, "press escape"⟩ ∧
    parseCommand "ctrl+c" =
      some ⟨"key", { keys := some ["ctrl", "c"] }, confidence08, "ctrl+c"⟩ ∧
    parseCommand "press ctrl+c" =
      some ⟨"key", { key := some "ctrl" }, confidence08, "press ctrl+c"⟩ := by
  refine ⟨by decide, by decide, by decide, by decide⟩

/-- C5: the two scroll rule shapes agree: `"scroll 3 times up"` and
`"scroll up 3"` both produce a scroll intent with direction `up` and repeat
count 3; `"scroll up"` (count absent) defaults the count to 3; and in
general the `direction` extractor yields count 3 whenever capture group 2 is
unset. -/
theorem c5_scroll_shapes_agree :
    parseCommand "scroll 3 times up" =
      some ⟨"scroll", { clicks := some 3, direction := some "up" }, confidence08,
        "scroll 3 times up"⟩ ∧
    parseCommand "scroll up 3" =
      some ⟨"scroll", { clicks := some 3, direction := some "up" }, confidence08,
        "scroll up 3"⟩ ∧
    parseCommand "scroll up" =
      some ⟨"scroll", { clicks := some 3, direction := some "up" }, confidence08,
        "scroll up"⟩ ∧
    (∀ (caps : Caps) (d : String) (a : String), caps 1 = some d → caps 2 = none →
      extractParameters caps .direction a =
        some { clicks := some 3, direction := some d }) := by
  refine ⟨by decide, by decide, by decide, ?_⟩
  intro caps d a h1 h2
  simp only [extractParameters, h1, h2, Option.bind_eq_bind, Option.some_bind]

/-- Witness for C5: the default-count conjunct applied to the concrete
capture environment binding only group 1 (to `up`). -/
theorem c5_witness :
    extractParameters upOnlyCaps .direction "scroll" =
      some { clicks := some 3, direction := some "up" } :=
  c5_scroll_shapes_agree.2.2.2 upOnlyCaps "up" "scroll" rfl rfl

/-- C6: normalization invariance: interpreting any command is identical to
interpreting its trimmed, lowercased form, and any command that is empty or
all whitespace is immediately `NoMatch` (`None`). -/
theorem c6_normalization_invariance (cmd : String) :
    parseCommand cmd = parseCommand (normCmd cmd) ∧
    (pyStrip cmd = "" → parseCommand cmd = none) := by
  constructor
  · show parseCommandWith extractParameters cmd = parseCommandWith extractParameters (normCmd cmd)
    simp only [parseCommandWith, normCmd_idem]
  · intro h
    show parseCommandWith extractParameters cmd = none
    simp [parseCommandWith, normCmd_eq_empty h]

/-- Witness for C6: the all-whitespace command `"   "` parses to `None`. -/
theorem c6_witness : parseCommand "   " = none :=
  (c6_normalization_invariance "   ").2 (by decide)

/-- C1 counterexample: with an extraction function that fails on the matched
right-click rule (the shipped `_extract_parameters` never fails, so a failing
extraction must be exhibited abstractly), `parse_command`'s traversal on
`"right click at 10,20"` does NOT return `NoMatch`: it continues past the
failed rule and the later generic click rule produces an intent. -/
theorem c1_counterexample :
    (searchFrom clickPatRight ("right click at 10,20").data).isSome = true ∧
    (∀ (caps : Caps) (a : String), failingExtract caps .right_coordinates a = none) ∧
    parseCommandWith failingExtract "right click at 10,20" =
      some ⟨"click", { x := some 10, y := some 20, button := some "left" }, confidence08,
        "right click at 10,20"⟩ :=
  ⟨by decide, fun caps a => rfl, by decide⟩

/-- C1 (amended): when a rule's pattern matches but its parameter extraction
fails, `parse_command` treats the rule as not matched and the traversal
CONTINUES with the remaining rules (rather than stopping with `NoMatch`). -/
theorem c1_extraction_failure_continues
    (extract : Caps → ExtractorKind → String → Option Params)
    (r : Rule) (rs : List Rule) (cmd : List Char)
    (hmatch : (searchFrom r.pattern cmd).isSome = true)
    (hfail : ∀ caps, extract caps r.kind r.category = none) :
    findIntent extract (r :: rs) cmd = findIntent extract rs cmd := by
  rcases hs : searchFrom r.pattern cmd with _ | caps
  · rw [hs] at hmatch
    simp at hmatch
  · simp only [findIntent, hs, hfail caps]

/-- Witness for C1: the amended statement applied to the head of the rule
table, the failing extraction function and `"right click at 10,20"`. -/
theorem c1_witness :
    findIntent failingExtract rulesList ("right click at 10,20").data =
      findIntent failingExtract (rulesList.drop 1) ("right click at 10,20").data :=
  c1_extraction_failure_continues failingExtract
    ⟨"click", clickPatRight, .right_coordinates⟩ (rulesList.drop 1)
    ("right click at 10,20").data (by decide) (fun caps => rfl)

/-- C3: double-click sequencing: for any click intent carrying `clicks=2` the
dispatcher issues exactly two click calls with the fixed delay between them
and returns the second call's result (discarding the first call's result even
when it failed); for any other click intent it issues exactly one click call
with the given button. -/
theorem c3_double_click_sequencing :
    (∀ (act : Actuator) (intent : ParsedIntent) (r1 r2 : ActionResult),
      intent.action_type = "click" →
      intent.parameters.clicks = some 2 →
      act.click 0 intent.parameters.x intent.parameters.y
        (intent.parameters.button.getD "left") = .ok r1 →
      act.click 1 intent.parameters.x intent.parameters.y
        (intent.parameters.button.getD "left") = .ok r2 →
      executeAction act intent =
        (r2, [.click intent.parameters.x intent.parameters.y
                (intent.parameters.button.getD "left"),
              .sleep sleepDelay,
              .click intent.parameters.x intent.parameters.y
                (intent.parameters.button.getD "left")])) ∧
    (∀ (act : Actuator) (intent : ParsedIntent),
      intent.action_type = "click" →
      intent.parameters.clicks.getD 1 ≠ 2 →
      (executeAction act intent).2 =
        [.click intent.parameters.x intent.parameters.y
          (intent.parameters.button.getD "left")] ∧
      (∀ r : ActionResult,
        act.click 0 intent.parameters.x intent.parameters.y
          (intent.parameters.button.getD "left") = .ok r →
        (executeAction act intent).1 = r)) := by
  constructor
  · intro act intent r1 r2 hty hclicks h1 h2
    have hgd : intent.parameters.clicks.getD 1 = 2 := by rw [hclicks]; rfl
    simp [executeAction, executeBody, hty, hgd, h1, h2]
  · intro act intent hty hclicks
    constructor
    · rcases h : act.click 0 intent.parameters.x intent.parameters.y
        (intent.parameters.button.getD "left") with e | r <;>
        simp [executeAction, executeBody, hty, hclicks, h]
    · intro r h
      simp [executeAction, executeBody, hty, hclicks, h]

/-- Witness for C3: both conjuncts applied to a concrete actuator whose first
click fails and second succeeds, on the parsed double-click intent and on a
single-click intent. -/
theorem c3_witness :
    executeAction dcActuator dcIntent =
      (⟨true, "click number 1 with left button", "click"⟩,
        [.click (some 5) (some 5) "left", .sleep sleepDelay,
          .click (some 5) (some 5) "left"]) ∧
    (executeAction dcActuator scIntent).2 = [.click (some 1) (some 2) "right"] ∧
    (executeAction dcActuator scIntent).1 =
      ⟨false, "click number 0 with right button", "click"⟩ := by
  refine ⟨?_, ?_, ?_⟩
  · exact c3_double_click_sequencing.1 dcActuator dcIntent
      ⟨false, "click number 0 with left button", "click"⟩
      ⟨true, "click number 1 with left button", "click"⟩
      rfl rfl rfl rfl
  · exact (c3_double_click_sequencing.2 dcActuator scIntent rfl (by decide)).1
  · exact (c3_double_click_sequencing.2 dcActuator scIntent rfl (by decide)).2
      ⟨false, "click number 0 with right button", "click"⟩ rfl

/-- C7: the dispatcher always returns an `ActionResult` and never propagates
an exception: any exception raised inside the dispatch body is caught and
converted into a failure result carrying the exception text and the intent's
category, and an intent with an unrecognized category yields a synthesized
failure naming the unknown category with no actuator call made. -/
theorem c7_dispatcher_total :
    (∀ (act : Actuator) (intent : ParsedIntent) (e : String) (tr : List ActCall),
      executeBody act intent = (.error e, tr) →
      executeAction act intent =
        (⟨false, "Execution error: " ++ e, intent.action_type⟩, tr)) ∧
    (∀ (act : Actuator) (intent : ParsedIntent),
      intent.action_type ∉
        ["click", "type", "key", "scroll", "move", "screenshot"] →
      executeAction act intent =
        (⟨false, "Unknown action type: " ++ intent.action_type, "unknown"⟩, [])) := by
  constructor
  · intro act intent e tr h
    simp only [executeAction, h]
  · intro act intent h
    simp only [List.mem_cons, List.mem_singleton, not_or] at h
    obtain ⟨h1, h2, h3, h4, h5, h6, -⟩ := h
    simp [executeAction, executeBody, h1, h2, h3, h4, h5, h6]

/-- Witness for C7: a raising actuator's click exception becomes an
`Execution error` failure result, and the unknown-category intent yields the
synthesized failure with an empty call trace. -/
theorem c7_witness :
    executeAction raisingActuator scIntent =
      (⟨false, "Execution error: click boom", "click"⟩,
        [.click (some 1) (some 2) "right"]) ∧
    executeAction raisingActuator unknownIntent =
      (⟨false, "Unknown action type: dance", "unknown"⟩, []) := by
  constructor
  · exact c7_dispatcher_total.1 raisingActuator scIntent "click boom"
      [.click (some 1) (some 2) "right"] rfl
  · exact c7_dispatcher_total.2 raisingActuator unknownIntent (by decide)

/-- The display slice is a suffix of the full log: nothing is reordered. -/
theorem recentEntries_suffix (h : List HistoryEntry) : recentEntries h <:+ h :=
  List.drop_suffix _ _

/-- C8: execution history contract: `record` appends in arrival order and
removes nothing; on a 15-entry log the display slice is exactly the last 10
entries in arrival order (the older 5 remaining in the full log); and a
cleared log has an empty display slice. -/
theorem c8_history_contract :
    (∀ (h : List HistoryEntry) (c : String) (r : ActionResult),
      recordEntry h c r = h ++ [(c, r)] ∧ h <+: recordEntry h c r ∧
        (recordEntry h c r).length = h.length + 1) ∧
    (∀ h : List HistoryEntry, h.length = 15 →
      recentEntries h = h.drop 5 ∧ (recentEntries h).length = 10 ∧
        recentEntries h <:+ h) ∧
    recentEntries clearHistory = [] := by
  refine ⟨?_, ?_, rfl⟩
  · intro h c r
    exact ⟨rfl, ⟨[(c, r)], rfl⟩, by simp [recordEntry]⟩
  · intro h hlen
    refine ⟨?_, ?_, recentEntries_suffix h⟩
    · unfold recentEntries
      rw [hlen]
    · unfold recentEntries
      rw [List.length_drop, hlen]

/-- Witness for C8: the bounded-display conjunct applied to a concrete
15-entry history. -/
theorem c8_witness :
    recentEntries history15 = history15.drop 5 ∧
    (recentEntries history15).length = 10 ∧
    recentEntries history15 <:+ history15 :=
  c8_history_contract.2.1 history15 (by decide)

/-- C9: parse-failure atomicity: a blank or unparseable command produces an
error response and leaves the execution history exactly unchanged; the
history changes only by appending the record of a command that produced a
structured intent. -/
theorem c9_parse_failure_atomicity (env : AppEnv) (h : List HistoryEntry)
    (cmd : String) :
    ((pyStrip cmd = "" ∨ parseCommand cmd = none) →
      (processCommand env h cmd).2 = h ∧
      ((processCommand env h cmd).1.1 = "❌ Error" ∨
        (processCommand env h cmd).1.1 = "❌ Unable to parse command")) ∧
    ((processCommand env h cmd).2 ≠ h →
      ∃ intent, parseCommand cmd = some intent ∧
        (processCommand env h cmd).2 =
          recordEntry h cmd (executeAction env.act intent).1) := by
  by_cases hb : pyStrip cmd = ""
  · constructor
    · intro _
      simp [processCommand, hb]
    · intro hne
      exact absurd (by simp [processCommand, hb]) hne
  · rcases hp : parseCommand cmd with _ | intent
    · constructor
      · intro _
        simp [processCommand, hb, hp]
      · intro hne
        exact absurd (by simp [processCommand, hb, hp]) hne
    · constructor
      · intro hor
        rcases hor with hor | hor
        · exact absurd hor hb
        · exact absurd hor (by simp)
      · intro _
        refine ⟨intent, rfl, ?_⟩
        simp [processCommand, hb, hp, recordEntry]

/-- Witness for C9: the blank command `"   "` leaves an empty history
unchanged with an error status, and `"click at 1,2"` changes the history by
appending exactly its own record. -/
theorem c9_witness :
    ((processCommand dcEnv [] "   ").2 = [] ∧
      ((processCommand dcEnv [] "   ").1.1 = "❌ Error" ∨
        (processCommand dcEnv [] "   ").1.1 = "❌ Unable to parse command")) ∧
    (∃ intent, parseCommand "click at 1,2" = some intent ∧
      (processCommand dcEnv [] "click at 1,2").2 =
        recordEntry [] "click at 1,2" (executeAction dcEnv.act intent).1) := by
  constructor
  · exact (c9_parse_failure_atomicity dcEnv [] "   ").1 (Or.inl (by decide))
  · exact (c9_parse_failure_atomicity dcEnv [] "click at 1,2").2 (by decide)

/-- The `direction` extractor stores capture group 1 as the direction. -/
theorem extract_direction_inv {caps : Caps} {a : String} {ps : Params}
    (h : extractParameters caps .direction a = some ps) :
    ps.direction = caps 1 := by
  unfold extractParameters at h
  rcases h1 : caps 1 with _ | d
  · rw [h1] at h
    simp at h
  · rw [h1] at h
    simp only [Option.bind_eq_bind, Option.some_bind] at h
    rcases h2 : caps 2 with _ | sC
    · rw [h2] at h
      simp only [Option.bind_eq_bind, Option.some_bind, Option.some.injEq] at h
      try rw [← h]
      try rfl
      try exact h1.symm
    · rw [h2] at h
      simp only [Option.bind_eq_bind] at h
      rcases h3 : pyToInt sC with _ | n
      · rw [h3] at h
        simp at h
      · rw [h3] at h
        simp only [Option.bind_eq_bind, Option.some_bind, Option.some.injEq] at h
        try rw [← h]
        try rfl
        try exact h1.symm

/-- The `direction_count` extractor stores capture group 2 as the direction. -/
theorem extract_direction_count_inv {caps : Caps} {a : String} {ps : Params}
    (h : extractParameters caps .direction_count a = some ps) :
    ps.direction = caps 2 := by
  unfold extractParameters at h
  rcases h1 : caps 1 with _ | sv
  · rw [h1] at h
    simp at h
  · rw [h1] at h
    simp only [Option.bind_eq_bind, Option.some_bind] at h
    rcases h2 : pyToInt sv with _ | n
    · rw [h2] at h
      simp at h
    · rw [h2] at h
      simp only [Option.bind_eq_bind, Option.some_bind] at h
      rcases h3 : caps 2 with _ | d
      · rw [h3] at h
        simp at h
      · rw [h3] at h
        simp only [Option.bind_eq_bind, Option.some_bind, Option.some.injEq] at h
        try rw [← h]
        try rfl
        try exact h3.symm

/-- For a direction that is `up` or `down`, the real engine's scroll never
returns the invalid-direction failure result. -/
theorem engineScroll_ne_invalid (py : Int → Except String Unit) (n : Int)
    {d : String} (hd : d = "up" ∨ d = "down") (m : String) :
    engineScroll py (some d) n ≠
      ⟨false, "Invalid scroll direction: " ++ m, "scroll"⟩ := by
  intro hcontra
  rcases hd with rfl | rfl
  · have hstep : engineScroll py (some "up") n =
        (match py n with
          | .ok _ =>
            ⟨true, "Scrolled " ++ "up" ++ " " ++ toString n ++ " clicks", "scroll"⟩
          | .error e => ⟨false, "Failed to scroll: " ++ e, "scroll"⟩) := rfl
    rw [hstep] at hcontra
    rcases hpy : py n with e | u
    · rw [hpy] at hcontra
      simp only [ActionResult.mk.injEq] at hcontra
      exact failed_msg_ne_invalid_msg e m hcontra.2.1
    · rw [hpy] at hcontra
      simp only [ActionResult.mk.injEq] at hcontra
      exact absurd hcontra.1 (by decide)
  · have hstep : engineScroll py (some "down") n =
        (match py (-n) with
          | .ok _ =>
            ⟨true, "Scrolled " ++ "down" ++ " " ++ toString n ++ " clicks", "scroll"⟩
          | .error e => ⟨false, "Failed to scroll: " ++ e, "scroll"⟩) := rfl
    rw [hstep] at hcontra
    rcases hpy : py (-n) with e | u
    · rw [hpy] at hcontra
      simp only [ActionResult.mk.injEq] at hcontra
      exact failed_msg_ne_invalid_msg e m hcontra.2.1
    · rw [hpy] at hcontra
      simp only [ActionResult.mk.injEq] at hcontra
      exact absurd hcontra.1 (by decide)

/-- C10: scroll-direction safety: every scroll intent produced by
`parse_command` carries a direction equal to exactly `"up"` or `"down"`
(the two scroll patterns can capture nothing else), so the actuators'
`Invalid scroll direction` failure branch is unreachable when dispatching
parser-produced intents: the mock engine's scroll always succeeds on such a
direction, and the real engine's scroll never returns the invalid-direction
result. -/
theorem c10_scroll_direction_safety (cmd : String) (intent : ParsedIntent)
    (hp : parseCommand cmd = some intent)
    (hscroll : intent.action_type = "scroll") :
    (intent.parameters.direction = some "up" ∨
      intent.parameters.direction = some "down") ∧
    (∀ n : Int, (mockScroll intent.parameters.direction n).success = true) ∧
    (∀ (py : Int → Except String Unit) (n : Int) (m : String),
      engineScroll py intent.parameters.direction n ≠
        ⟨false, "Invalid scroll direction: " ++ m, "scroll"⟩) := by
  have hdir : intent.parameters.direction = some "up" ∨
      intent.parameters.direction = some "down" := by
    unfold parseCommand parseCommandWith at hp
    by_cases hempty : normCmd cmd = ""
    · rw [if_pos hempty] at hp
      exact absurd hp (by simp)
    · rw [if_neg hempty] at hp
      obtain ⟨r, hr, caps, hsearch, hex, hcat⟩ :=
        findIntent_inv extractParameters rulesList (normCmd cmd).data hp
      have hrcat : r.category = "scroll" := by
        rw [← hcat]
        exact hscroll
      simp only [rulesList, List.mem_cons, List.not_mem_nil, or_false] at hr
      rcases hr with rfl|rfl|rfl|rfl|rfl|rfl|rfl|rfl|rfl|rfl|rfl|rfl|rfl|rfl|rfl|rfl|rfl|rfl
      all_goals try exact absurd hrcat (by decide)
      · obtain ⟨t, rest2, hm⟩ := searchFrom_inv _ _ hsearch
        have hc1 := scrollPatDir_caps hm
        have hd := extract_direction_inv hex
        rw [hd]
        exact hc1
      · obtain ⟨t, rest2, hm⟩ := searchFrom_inv _ _ hsearch
        have hc2 := scrollPatCount_caps hm
        have hd := extract_direction_count_inv hex
        rw [hd]
        exact hc2
  refine ⟨hdir, ?_, ?_⟩
  · intro n
    rcases hdir with hd | hd <;> rw [hd] <;> rfl
  · intro py n m
    rcases hdir with hd | hd <;> rw [hd]
    · exact engineScroll_ne_invalid py n (Or.inl rfl) m
    · exact engineScroll_ne_invalid py n (Or.inr rfl) m

/-- Witness for C10: the theorem applied to the concrete command
`"scroll up"` and its parsed intent. -/
theorem c10_witness :
    ((some "up" : Option String) = some "up" ∨
      (some "up" : Option String) = some "down") ∧
    (∀ n : Int, (mockScroll (some "up") n).success = true) ∧
    (∀ (py : Int → Except String Unit) (n : Int) (m : String),
      engineScroll py (some "up") n ≠
        ⟨false, "Invalid scroll direction: " ++ m, "scroll"⟩) :=
  c10_scroll_direction_safety "scroll up"
    ⟨"scroll", { clicks := some 3, direction := some "up" }, confidence08, "scroll up"⟩
    (by decide) rfl
